import Mathlib

/-!
Formal model of the seatalkbot client library (Go), covering the retry
executor (helper/retry.go), the token refresh operation, the client
lifecycle and the background scheduler (client.go), and the group-id
pagination loop.

Effectful Go functions are embedded as explicit state passing: an operation
that may fail is a function returning a value of type Option E (none meaning
success, mirroring a nil Go error); a loop that may run unboundedly is given
explicit fuel, and theorems quantify over the fuel where needed.
-/

namespace Seatalkbot

/-- Model of helper.RunWithRetry. The Go function is
  for :: i++; err := fn(); if err == nil return nil;
  if maxRetry > 0 and i >= maxRetry return err; sleep; repeat.
Here fn is embedded as a state-passing operation indexed by the invocation
number i (starting at 1), returning the new state and an optional error.
The extra fuel argument bounds how many loop iterations we unfold; the
result is (none, calls) when the fuel ran out with the loop still going,
and (some (finalState, result), calls) when the loop returned, where calls
is the total number of invocations of fn that were started. -/
def runWithRetryAux {σ E : Type} (fn : Nat → σ → σ × Option E) (maxRetry : Int) :
    Nat → Nat → σ → Option (σ × Option E) × Nat
  | 0, i, _ => (none, i)
  | fuel + 1, i, s =>
    let r := fn (i + 1) s
    match r.2 with
    | none => (some (r.1, none), i + 1)
    | some err =>
      if 0 < maxRetry ∧ maxRetry ≤ ((i + 1 : Nat) : Int) then (some (r.1, some err), i + 1)
      else runWithRetryAux fn maxRetry fuel (i + 1) r.1

/-- Model of helper.RunWithRetry for a stateless operation, as it is called
from retry.go: f k is the (optional) error produced by the k-th invocation
of fn, k counted from 1. -/
def runPure {E : Type} (f : Nat → Option E) (maxRetry : Int) (fuel : Nat) :
    Option (Unit × Option E) × Nat :=
  runWithRetryAux (fun k _ => ((), f k)) maxRetry fuel 0 ()

lemma runWithRetryAux_allFail {E : Type} (f : Nat → Option E) (m : Nat) :
    ∀ fuel i, i < m → m ≤ i + fuel →
      (∀ k, i < k → k ≤ m → (f k).isSome) →
      runWithRetryAux (fun k _ => ((), f k)) (m : Int) fuel i () = (some ((), f m), m) := by
  intro fuel
  induction fuel with
  | zero => intro i hi hmi _; omega
  | succ fuel ih =>
    intro i hi hmi hfail
    have hk : (f (i + 1)).isSome := hfail (i + 1) (by omega) (by omega)
    obtain ⟨e, he⟩ := Option.isSome_iff_exists.mp hk
    by_cases hstop : i + 1 = m
    · simp only [runWithRetryAux, he]
      have hcond : 0 < (m : Int) ∧ (m : Int) ≤ ((i + 1 : Nat) : Int) := by
        constructor <;> [exact_mod_cast Nat.pos_of_ne_zero (by omega); exact_mod_cast le_of_eq hstop.symm]
      rw [if_pos hcond]
      rw [hstop] at he
      simp [he, hstop]
    · have hlt : i + 1 < m := by omega
      simp only [runWithRetryAux, he]
      have hcond : ¬(0 < (m : Int) ∧ (m : Int) ≤ ((i + 1 : Nat) : Int)) := by
        intro ⟨_, hle⟩
        have : m ≤ i + 1 := by exact_mod_cast hle
        omega
      rw [if_neg hcond]
      exact ih (i + 1) hlt (by omega) (fun k hk1 hk2 => hfail k (by omega) hk2)

lemma runWithRetryAux_firstSuccess {E : Type} (f : Nat → Option E) (mR : Int) :
    ∀ fuel i k, i < k → k ≤ i + fuel →
      (∀ j, i < j → j < k → (f j).isSome ∧ ¬(0 < mR ∧ mR ≤ (j : Int))) →
      f k = none →
      runWithRetryAux (fun k _ => ((), f k)) mR fuel i () = (some ((), none), k) := by
  intro fuel
  induction fuel with
  | zero => intro i k hik hki _ _; omega
  | succ fuel ih =>
    intro i k hik hki hmid hk
    by_cases hnow : i + 1 = k
    · subst hnow
      simp [runWithRetryAux, hk]
    · have hlt : i + 1 < k := by omega
      obtain ⟨hs, hnostop⟩ := hmid (i + 1) (by omega) hlt
      obtain ⟨e, he⟩ := Option.isSome_iff_exists.mp hs
      simp only [runWithRetryAux, he]
      rw [if_neg (by exact_mod_cast hnostop)]
      exact ih (i + 1) k hlt (by omega) (fun j hj1 hj2 => hmid j (by omega) hj2) hk

lemma runWithRetryAux_neverStops {E : Type} (f : Nat → Option E) (mR : Int)
    (hmR : mR ≤ 0) (hf : ∀ k, (f k).isSome) :
    ∀ fuel i, runWithRetryAux (fun k _ => ((), f k)) mR fuel i () = (none, i + fuel) := by
  intro fuel
  induction fuel with
  | zero => intro i; simp [runWithRetryAux]
  | succ fuel ih =>
    intro i
    obtain ⟨e, he⟩ := Option.isSome_iff_exists.mp (hf (i + 1))
    simp only [runWithRetryAux, he]
    rw [if_neg (by intro ⟨h1, _⟩; omega)]
    rw [ih (i + 1)]
    congr 1
    omega

lemma runWithRetryAux_bounded {E : Type} (f : Nat → Option E) (m : Nat) :
    ∀ fuel i, i < m → m ≤ i + fuel →
      ((runWithRetryAux (fun k _ => ((), f k)) (m : Int) fuel i ()).1.isSome ∧
       (runWithRetryAux (fun k _ => ((), f k)) (m : Int) fuel i ()).2 ≤ m) := by
  intro fuel
  induction fuel with
  | zero => intro i hi hmi; omega
  | succ fuel ih =>
    intro i hi hmi
    rcases hfk : f (i + 1) with _ | e
    · simp only [runWithRetryAux, hfk]
      exact ⟨rfl, by omega⟩
    · by_cases hstop : i + 1 = m
      · simp only [runWithRetryAux, hfk]
        rw [if_pos (by exact ⟨by exact_mod_cast Nat.pos_of_ne_zero (by omega),
              by exact_mod_cast le_of_eq hstop.symm⟩)]
        exact ⟨rfl, by omega⟩
      · simp only [runWithRetryAux, hfk]
        rw [if_neg (by
          intro ⟨_, hle⟩
          have : m ≤ i + 1 := by exact_mod_cast hle
          omega)]
        exact ih (i + 1) (by omega) (by omega)

/-- Key of the token field extracted by gjson in client.UpdateAccessToken. -/
def tokenFieldKey : String := "app_access_token"

/-- Default host constant from client.go. -/
def defaultHost : String := "https://openapi.seatalk.io"

/-- Minimal JSON value model, enough for the fields the client reads. -/
inductive JVal where
  | jstr (s : String)
  | jnum (n : Int)
deriving DecidableEq

/-- gjson result String() conversion for the values we model. -/
def JVal.toStr : JVal → String
  | .jstr s => s
  | .jnum n => toString n

/-- A JSON object as an association list in document order. -/
abbrev JObj := List (String × JVal)

/-- Model of gjson.Get for a plain top-level key: the first matching field,
none when the key is absent. -/
def jGet (obj : JObj) (key : String) : Option JVal :=
  (obj.find? (fun p => p.1 == key)).map (fun p => p.2)

/-- Outcome of reading the response body: io.ReadAll may fail; otherwise the
raw bytes either parse as a JSON object or not (gjson treats unparsable
input as a document where every lookup misses, modelled as parsed = none). -/
inductive BodyResult where
  | readError
  | raw (parsed : Option JObj)
deriving DecidableEq

/-- An HTTP response as seen by the client: status code plus body outcome. -/
structure HTTPResponse where
  status : Nat
  body : BodyResult
deriving DecidableEq

/-- Outcome of httpClient.Do: transport failure or a response. -/
inductive HTTPResult where
  | transportError
  | response (resp : HTTPResponse)
deriving DecidableEq

/-- The distinct error cases of client.UpdateAccessToken. -/
inductive RefreshError where
  | transport
  | badStatus (code : Nat)
  | bodyRead
  | missingToken
deriving DecidableEq

/-- The mutable client struct from client.go. stop is a context.CancelFunc;
we model its presence (hasStop) and whether it has been called (cancelled). -/
structure ClientState where
  host : String
  appID : String
  appSecret : String
  accessToken : String
  hasStop : Bool
  cancelled : Bool
deriving DecidableEq

/-- Model of client.UpdateAccessToken, as a function of the auth endpoint
exchange outcome r: check transport error, then status != 200, then body
read error, then extract the app_access_token field; only on success is
c.accessToken overwritten. Marshalling the two string credential fields and
building the request cannot fail and are omitted. -/
def updateAccessToken (c : ClientState) (r : HTTPResult) : ClientState × Option RefreshError :=
  match r with
  | .transportError => (c, some .transport)
  | .response resp =>
    if resp.status ≠ 200 then (c, some (.badStatus resp.status))
    else
      match resp.body with
      | .readError => (c, some .bodyRead)
      | .raw parsed =>
        match parsed.bind (fun obj => jGet obj tokenFieldKey) with
        | none => (c, some .missingToken)
        | some v => ({ c with accessToken := v.toStr }, none)

/-- Model of client.AccessToken. -/
def AccessToken (c : ClientState) : String := c.accessToken

/-- Model of client.Close: call the cancel function when present (cancel is
idempotent), always return a nil error. -/
def Close (c : ClientState) : ClientState × Option Unit :=
  (if c.hasStop then { c with cancelled := true } else c, none)

/-- Iterated Close calls. -/
def closeIter : Nat → ClientState → ClientState
  | 0, c => c
  | n + 1, c => closeIter n (Close c).1

/-- The Config struct of client.go; the HTTP transport is modelled by its
presence only. -/
structure GoConfig where
  httpClient : Option Unit
  host : String
  appID : String
  appSecret : String

/-- The client value built inside NewClient before the initial refresh. -/
def initialClient (cfg : GoConfig) : ClientState :=
  { host := if cfg.host = "" then defaultHost else cfg.host
    appID := cfg.appID
    appSecret := cfg.appSecret
    accessToken := ""
    hasStop := true
    cancelled := false }

/-- The error cases of NewClient. -/
inductive NewClientError where
  | nilHTTPClient
  | initTokenFailed (e : RefreshError)
deriving DecidableEq

/-- Model of NewClient: fail when the transport is nil, otherwise run the
initial refresh through helper.RunWithRetry with maxRetry 3, threading the
client state; responses k is the auth endpoint outcome of the k-th attempt.
On success the scheduler goroutine is started (the returned Bool).
Fuel 3 always suffices for maxRetry 3, so the fuel-exhausted branch of
runWithRetryAux is unreachable here (runWithRetryAux_bounded). -/
def newClient (cfg : GoConfig) (responses : Nat → HTTPResult) :
    Except NewClientError ClientState × Bool :=
  match cfg.httpClient with
  | none => (.error .nilHTTPClient, false)
  | some _ =>
    match (runWithRetryAux (fun k s => updateAccessToken s (responses k)) 3 3 0
        (initialClient cfg)).1 with
    | some (s, none) => (.ok s, true)
    | some (_, some e) => (.error (.initTokenFailed e), false)
    | none => (.error .nilHTTPClient, false)

/-- The scheduler goroutine of runAccessTokenScheduler as a state machine:
running while the goroutine loops in its select, stopped once the
ctx.Done() branch returned. -/
inductive SchedPhase where
  | running
  | stopped
deriving DecidableEq

/-- Channel readiness at one select of the scheduler loop: doneReady is true
from the moment Close cancelled the context, tickReady when the 7000-second
ticker has fired (the ticker is never stopped, so it keeps firing after
Close as well). -/
structure SelectInput where
  doneReady : Bool
  tickReady : Bool
deriving DecidableEq

/-- The two cases of the select statement in the scheduler loop. -/
inductive SchedBranch where
  | done
  | tick
deriving DecidableEq

/-- Go select semantics: a case may be chosen exactly when its channel is
ready; when several are ready the choice is pseudo-random, modelled here as
nondeterministic. -/
def branchReady (inp : SelectInput) : SchedBranch → Bool
  | .done => inp.doneReady
  | .tick => inp.tickReady

/-- One select iteration of the scheduler loop: choosing the done case
returns from the goroutine (stopped, terminal); choosing the tick case
starts a refresh retry loop (the returned Bool) and loops again. A branch
whose channel is not ready cannot be selected, modelled as a no-op. -/
def schedStep : SchedPhase → SelectInput → SchedBranch → SchedPhase × Bool
  | .stopped, _, _ => (.stopped, false)
  | .running, inp, b =>
    if branchReady inp b then
      match b with
      | .done => (.stopped, false)
      | .tick => (.running, true)
    else (.running, false)

/-- Run the scheduler over a sequence of select events, counting how many
refresh retry loops were started. -/
def schedRun : SchedPhase → List (SelectInput × SchedBranch) → SchedPhase × Nat
  | p, [] => (p, 0)
  | p, e :: rest =>
    let s := schedStep p e.1 e.2
    let r := schedRun s.1 rest
    (r.1, (if s.2 then 1 else 0) + r.2)

/-- Model of the loop body of client.getGroupIDs, abstracted over the page
endpoint: fetch cursor yields either an error or the page's group ids and
next cursor. -/
def GroupFetch : Type := String → Except Unit (List String × String)

/-- Initial value of the cursor variable in client.GetGroupIDs. -/
def emptyCursor : String := ""

/-- Model of the loop in client.GetGroupIDs. The source declares cursor,
passes it to every c.getGroupIDs call, and never reassigns it from the
returned nextCursor, so the recursive call below keeps the same cursor.
Returns the result (none when the fuel ran out with the loop still going)
together with the trace of cursors the per-page requests were issued with. -/
def getGroupIDsAux (fetch : GroupFetch) :
    Nat → String → List String → Option (Except Unit (List String)) × List String
  | 0, _, _ => (none, [])
  | fuel + 1, cursor, acc =>
    match fetch cursor with
    | .error e => (some (.error e), [cursor])
    | .ok (ids, next) =>
      if next = "" then (some (.ok (acc ++ ids)), [cursor])
      else
        let r := getGroupIDsAux fetch fuel cursor (acc ++ ids)
        (r.1, cursor :: r.2)

/-- Model of client.GetGroupIDs: start with the empty cursor and an empty
accumulator. -/
def GetGroupIDs (fetch : GroupFetch) (fuel : Nat) :
    Option (Except Unit (List String)) × List String :=
  getGroupIDsAux fetch fuel emptyCursor []

lemma runWithRetryAux_step_ok {σ E : Type} (fn : Nat → σ → σ × Option E) (mR : Int)
    (fuel i : Nat) (s : σ) (he : (fn (i + 1) s).2 = none) :
    runWithRetryAux fn mR (fuel + 1) i s = (some ((fn (i + 1) s).1, none), i + 1) := by
  simp only [runWithRetryAux, he]

lemma runWithRetryAux_step_fail {σ E : Type} (fn : Nat → σ → σ × Option E) (mR : Int)
    (fuel i : Nat) (s : σ) (e : E) (he : (fn (i + 1) s).2 = some e)
    (hcond : ¬(0 < mR ∧ mR ≤ ((i + 1 : Nat) : Int))) :
    runWithRetryAux fn mR (fuel + 1) i s = runWithRetryAux fn mR fuel (i + 1) (fn (i + 1) s).1 := by
  simp only [runWithRetryAux, he]
  rw [if_neg hcond]

lemma runWithRetryAux_step_stop {σ E : Type} (fn : Nat → σ → σ × Option E) (mR : Int)
    (fuel i : Nat) (s : σ) (e : E) (he : (fn (i + 1) s).2 = some e)
    (hcond : 0 < mR ∧ mR ≤ ((i + 1 : Nat) : Int)) :
    runWithRetryAux fn mR (fuel + 1) i s = (some ((fn (i + 1) s).1, some e), i + 1) := by
  simp only [runWithRetryAux, he]
  rw [if_pos hcond]

/-- Claim C1: for every maxRetry > 0, RunWithRetry invokes fn at most maxRetry
times; if every invocation returns an error it returns the error of the last
(maxRetry-th) invocation, and if some invocation returns nil it returns nil
immediately after that invocation, with no further invocations. Stated over
any sufficient fuel, so the result does not depend on the fuel bound. -/
theorem retry_bounded_spec {E : Type} (f : Nat → Option E) (m : Nat) (hm : 0 < m)
    (fuel : Nat) (hfuel : m ≤ fuel) :
    ((runPure f m fuel).1.isSome ∧ (runPure f m fuel).2 ≤ m) ∧
    ((∀ k, 1 ≤ k → k ≤ m → (f k).isSome) → runPure f m fuel = (some ((), f m), m)) ∧
    (∀ k, 1 ≤ k → k ≤ m → f k = none → (∀ j, 1 ≤ j → j < k → (f j).isSome) →
      runPure f m fuel = (some ((), none), k)) := by
  refine ⟨?_, ?_, ?_⟩
  · simpa only [runPure] using runWithRetryAux_bounded f m fuel 0 hm (by omega)
  · intro hall
    simp only [runPure]
    exact runWithRetryAux_allFail f m fuel 0 hm (by omega)
      (fun k hk1 hk2 => hall k (by omega) hk2)
  · intro k hk1 hkm hk hprev
    simp only [runPure]
    refine runWithRetryAux_firstSuccess f (m : Int) fuel 0 k (by omega) (by omega) ?_ hk
    intro j hj1 hj2
    refine ⟨hprev j (by omega) hj2, ?_⟩
    intro ⟨_, hle⟩
    have : m ≤ j := by exact_mod_cast hle
    omega

/-- Witness for retry_bounded_spec: with maxRetry 2 and an operation that
always fails with error 7, the run stops after 2 invocations returning
error 7. -/
theorem retry_bounded_spec_witness :
    0 < 2 ∧ runPure (fun _ => some (7 : Nat)) 2 2 = (some ((), some 7), 2) :=
  ⟨by decide, (retry_bounded_spec (fun _ => some (7 : Nat)) 2 (by decide) 2
    (by decide)).2.1 (fun _ _ _ => rfl)⟩

/-- Claim C2: for every maxRetry <= 0 and an operation that fails exactly N
times and then succeeds, RunWithRetry invokes fn exactly N+1 times and
returns nil, for any fuel covering the N+1 iterations. -/
theorem retry_unlimited_eventual_success {E : Type} (f : Nat → Option E) (mR : Int)
    (hmR : mR ≤ 0) (N : Nat) (hfail : ∀ k, 1 ≤ k → k ≤ N → (f k).isSome)
    (hsucc : f (N + 1) = none) (fuel : Nat) (hfuel : N + 1 ≤ fuel) :
    runPure f mR fuel = (some ((), none), N + 1) := by
  simp only [runPure]
  refine runWithRetryAux_firstSuccess f mR fuel 0 (N + 1) (by omega) (by omega) ?_ hsucc
  intro j hj1 hj2
  exact ⟨hfail j (by omega) (by omega), fun ⟨h1, _⟩ => by omega⟩

/-- Witness for retry_unlimited_eventual_success: maxRetry -1, an operation
failing once with error 3 and succeeding on the second invocation: the run
returns nil after exactly 2 invocations. -/
theorem retry_unlimited_eventual_success_witness :
    runPure (fun k => if k = 2 then none else some (3 : Nat)) (-1) 2 =
      (some ((), none), 2) :=
  retry_unlimited_eventual_success (fun k => if k = 2 then none else some (3 : Nat))
    (-1) (by decide) 1
    (fun k h1 h2 => by
      have hk : k = 1 := by omega
      subst hk
      decide)
    (by decide) 2 (by decide)

/-- Counterexample to claim C3: RunWithRetry has no cancellation input at
all; modelling the situation after cancellation, where every invocation of
the operation keeps returning an error (the cancelled context error), the
unlimited-mode executor has started 10 invocations after 10 loop
iterations and 11 after 11, without ever stopping — cancellation does not
stop it and the number of invocations started keeps growing. -/
theorem retry_ignores_cancellation_cex :
    runWithRetryAux (fun _ (_ : Unit) => ((), some (1 : Nat))) (-1) 10 0 () = (none, 10) ∧
    runWithRetryAux (fun _ (_ : Unit) => ((), some (1 : Nat))) (-1) 11 0 () = (none, 11) := by
  decide

/-- Claim C3 amended: in unlimited mode (maxRetry <= 0) RunWithRetry stops
only when an invocation returns nil; it takes no cancellation signal. If
after cancellation every invocation keeps returning an error, the executor
starts one further invocation per loop iteration, without bound: within any
fuel budget it performs exactly that many invocations and never returns.
Cancellation only prevents the scheduler from starting new retry loops
between ticks. -/
theorem retry_unlimited_never_stops {E : Type} (f : Nat → Option E) (mR : Int)
    (hmR : mR ≤ 0) (hf : ∀ k, (f k).isSome) (fuel : Nat) :
    runPure f mR fuel = (none, fuel) := by
  simp only [runPure]
  simpa using runWithRetryAux_neverStops f mR hmR hf fuel 0

/-- Witness for retry_unlimited_never_stops at maxRetry -1, an operation
that always fails with error 1, and fuel 5. -/
theorem retry_unlimited_never_stops_witness :
    runPure (fun _ => some (1 : Nat)) (-1) 5 = (none, 5) :=
  retry_unlimited_never_stops (fun _ => some (1 : Nat)) (-1) (by decide)
    (fun _ => rfl) 5

/-- Counterexample to claim C4: after Close has cancelled the context the
done channel is ready forever, and because the ticker is never stopped a
tick can also be ready; Go's select then chooses pseudo-randomly among the
ready cases, so the tick case is selectable and its body starts a new
refresh retry loop even though Close already completed. -/
theorem scheduler_refresh_after_close_cex :
    branchReady { doneReady := true, tickReady := true } SchedBranch.tick = true ∧
    schedStep SchedPhase.running { doneReady := true, tickReady := true } SchedBranch.tick =
      (SchedPhase.running, true) := by
  decide

/-- Claim C4 amended: once the scheduler has taken the cancellation branch
it is stopped, terminally: no step from the stopped phase ever starts a
refresh, over any sequence of further select events. Moreover, when the
cancellation signal is ready and no tick is ready, the only selectable
branch stops the scheduler without starting a refresh. What the original
claim adds — that no new refresh starts after Close even in a timing race —
fails: while a tick is ready simultaneously, the select may choose it and
start one more refresh loop. -/
theorem scheduler_stop_spec :
    (∀ inp b, schedStep SchedPhase.stopped inp b = (SchedPhase.stopped, false)) ∧
    (∀ inp b, inp.doneReady = true → inp.tickReady = false → branchReady inp b = true →
      schedStep SchedPhase.running inp b = (SchedPhase.stopped, false)) ∧
    (∀ evs, schedRun SchedPhase.stopped evs = (SchedPhase.stopped, 0)) := by
  refine ⟨fun inp b => rfl, ?_, ?_⟩
  · intro inp b hd ht hr
    cases b with
    | done => simp [schedStep, branchReady, hd]
    | tick =>
      exfalso
      rw [show branchReady inp SchedBranch.tick = inp.tickReady from rfl, ht] at hr
      exact Bool.false_ne_true hr
  · intro evs
    induction evs with
    | nil => rfl
    | cons e rest ih => simp [schedRun, schedStep, ih]

/-- Witness for scheduler_stop_spec: with the cancellation signal ready and
no tick ready, the running scheduler stops without starting a refresh. -/
theorem scheduler_stop_spec_witness :
    schedStep SchedPhase.running { doneReady := true, tickReady := false } SchedBranch.done =
      (SchedPhase.stopped, false) :=
  scheduler_stop_spec.2.1 { doneReady := true, tickReady := false } SchedBranch.done
    rfl rfl rfl

lemma updateAccessToken_fail_frame (c : ClientState) (r : HTTPResult)
    (h : (updateAccessToken c r).2 ≠ none) : (updateAccessToken c r).1 = c := by
  cases r with
  | transportError => rfl
  | response resp =>
    by_cases hs : resp.status = 200
    · cases hb : resp.body with
      | readError => simp [updateAccessToken, hs, hb]
      | raw parsed =>
        cases hp : parsed.bind (fun obj => jGet obj tokenFieldKey) with
        | none => simp [updateAccessToken, hs, hb, hp]
        | some v =>
          exfalso
          apply h
          simp [updateAccessToken, hs, hb, hp]
    · simp [updateAccessToken, hs]

/-- Claim C5: UpdateAccessToken succeeds exactly when the transport call
returned a response with status 200 whose body was read and parsed as an
object holding the app_access_token field — equivalently, it errors exactly
on transport failure, non-200 status, an unreadable body, or an absent
token field; and a status-200 response without the token field produces
precisely the missing-token error. -/
theorem updateAccessToken_error_conditions (c : ClientState) (r : HTTPResult) :
    ((updateAccessToken c r).2 = none ↔
      ∃ resp obj v, r = .response resp ∧ resp.status = 200 ∧
        resp.body = .raw (some obj) ∧ jGet obj tokenFieldKey = some v) ∧
    (∀ obj, jGet obj tokenFieldKey = none →
      (updateAccessToken c (.response ⟨200, .raw (some obj)⟩)).2 = some .missingToken) := by
  constructor
  · cases r with
    | transportError => simp [updateAccessToken]
    | response resp =>
      obtain ⟨status, body⟩ := resp
      by_cases hs : status = 200
      · subst hs
        cases body with
        | readError => simp [updateAccessToken]
        | raw parsed =>
          cases parsed with
          | none => simp [updateAccessToken]
          | some obj =>
            cases hj : jGet obj tokenFieldKey with
            | none => simp [updateAccessToken, hj]
            | some v =>
              refine iff_of_true (by simp [updateAccessToken, hj]) ?_
              exact ⟨⟨200, .raw (some obj)⟩, obj, v, rfl, rfl, rfl, hj⟩
      · simp [updateAccessToken, hs]
  · intro obj h
    simp [updateAccessToken, h]

/-- Sample client value used by concrete witnesses. -/
def sampleClient : ClientState :=
  { host := defaultHost, appID := "", appSecret := "", accessToken := "",
    hasStop := true, cancelled := false }

/-- Field name used in the status-200-but-no-token witness. -/
def otherFieldKey : String := "other_field"

/-- Field value used in the status-200-but-no-token witness. -/
def sampleVal : JVal := JVal.jstr "x"

/-- Witness for updateAccessToken_error_conditions: a 200 response whose
body is the object with only an other_field entry yields the missing-token
error. -/
theorem updateAccessToken_error_conditions_witness :
    (updateAccessToken sampleClient
      (.response ⟨200, .raw (some [(otherFieldKey, sampleVal)])⟩)).2 =
      some RefreshError.missingToken :=
  (updateAccessToken_error_conditions sampleClient
      (.response ⟨200, .raw (some [(otherFieldKey, sampleVal)])⟩)).2
    [(otherFieldKey, sampleVal)] (by decide)

/-- Claim C6: a refresh whose auth response is status 200 with a body whose
app_access_token field is the string s succeeds, and a subsequent
AccessToken read returns exactly s. -/
theorem refresh_success_sets_token (c : ClientState) (obj : JObj) (s : String)
    (h : jGet obj tokenFieldKey = some (JVal.jstr s)) :
    (updateAccessToken c (.response ⟨200, .raw (some obj)⟩)).2 = none ∧
    AccessToken (updateAccessToken c (.response ⟨200, .raw (some obj)⟩)).1 = s := by
  simp [updateAccessToken, h, AccessToken, JVal.toStr]

/-- Token string used by concrete witnesses. -/
def abcToken : String := "abc"

/-- Witness for refresh_success_sets_token with the body holding
app_access_token abc: the refresh succeeds and AccessToken returns abc. -/
theorem refresh_success_sets_token_witness :
    (updateAccessToken sampleClient
      (.response ⟨200, .raw (some [(tokenFieldKey, JVal.jstr abcToken)])⟩)).2 = none ∧
    AccessToken (updateAccessToken sampleClient
      (.response ⟨200, .raw (some [(tokenFieldKey, JVal.jstr abcToken)])⟩)).1 = abcToken :=
  refresh_success_sets_token sampleClient [(tokenFieldKey, JVal.jstr abcToken)]
    abcToken (by decide)

/-- Claim C10: whenever UpdateAccessToken returns an error, the stored
access token is unchanged: AccessToken returns the same value before and
after the failed call. -/
theorem refresh_failure_preserves_token (c : ClientState) (r : HTTPResult)
    (h : (updateAccessToken c r).2 ≠ none) :
    AccessToken (updateAccessToken c r).1 = AccessToken c := by
  rw [updateAccessToken_fail_frame c r h]

/-- Witness for refresh_failure_preserves_token at a transport failure. -/
theorem refresh_failure_preserves_token_witness :
    AccessToken (updateAccessToken sampleClient HTTPResult.transportError).1 =
      AccessToken sampleClient :=
  refresh_failure_preserves_token sampleClient HTTPResult.transportError (by decide)

lemma close_fixed (c : ClientState) : (Close (Close c).1).1 = (Close c).1 := by
  by_cases hc : c.hasStop <;> simp [Close, hc]

lemma close_token (c : ClientState) : ((Close c).1).accessToken = c.accessToken := by
  by_cases hc : c.hasStop <;> simp [Close, hc]

lemma closeIter_fixed (d : ClientState) (hd : (Close d).1 = d) :
    ∀ m, closeIter m d = d := by
  intro m
  induction m with
  | zero => rfl
  | succ m ih => simpa [closeIter, hd] using ih

/-- Claim C8: Close always returns a nil error; after the first call any
further Close calls leave the state exactly where the first call left it;
and no sequence of Close calls changes the stored access token. -/
theorem close_idempotent_preserves_token (c : ClientState) :
    ((Close c).2 = none) ∧
    (∀ n, 1 ≤ n → closeIter n c = (Close c).1) ∧
    (∀ n, AccessToken (closeIter n c) = AccessToken c) := by
  refine ⟨rfl, ?_, ?_⟩
  · intro n hn
    obtain ⟨m, rfl⟩ := Nat.exists_eq_add_of_le hn
    rw [Nat.add_comm 1 m]
    show closeIter m ((Close c).1) = (Close c).1
    exact closeIter_fixed (Close c).1 (close_fixed c) m
  · intro n
    induction n generalizing c with
    | zero => rfl
    | succ n ih =>
      show AccessToken (closeIter n (Close c).1) = AccessToken c
      rw [ih (Close c).1]
      exact close_token c

/-- Witness for close_idempotent_preserves_token: two Close calls on the
sample client end in the same state as one. -/
theorem close_idempotent_preserves_token_witness :
    closeIter 2 sampleClient = (Close sampleClient).1 :=
  (close_idempotent_preserves_token sampleClient).2.1 2 (by decide)

/-- Claim C7: NewClient returns an error and no client when the HTTP
transport is nil; when the transport is present and all 3 attempts of the
bounded initial refresh fail, it returns the last attempt's error, no
client, and no scheduler is started; and when the transport is present and
attempt k (k between 1 and 3, all earlier attempts failing) succeeds, a
client is returned — holding the state written by the successful refresh —
with the scheduler running. -/
theorem newClient_spec (cfg : GoConfig) (responses : Nat → HTTPResult) :
    (cfg.httpClient = none → newClient cfg responses = (.error .nilHTTPClient, false)) ∧
    (cfg.httpClient.isSome →
      (∀ k, 1 ≤ k → k ≤ 3 →
        ((updateAccessToken (initialClient cfg) (responses k)).2).isSome) →
      ∃ e, (updateAccessToken (initialClient cfg) (responses 3)).2 = some e ∧
        newClient cfg responses = (.error (.initTokenFailed e), false)) ∧
    (cfg.httpClient.isSome →
      ∀ k, 1 ≤ k → k ≤ 3 →
        (∀ j, 1 ≤ j → j < k →
          ((updateAccessToken (initialClient cfg) (responses j)).2).isSome) →
        (updateAccessToken (initialClient cfg) (responses k)).2 = none →
        newClient cfg responses =
          (.ok ((updateAccessToken (initialClient cfg) (responses k)).1), true)) := by
  refine ⟨?_, ?_, ?_⟩
  · intro h
    simp [newClient, h]
  · intro hcl hfail
    obtain ⟨u, hu⟩ := Option.isSome_iff_exists.mp hcl
    obtain ⟨e1, he1⟩ := Option.isSome_iff_exists.mp (hfail 1 (by omega) (by omega))
    obtain ⟨e2, he2⟩ := Option.isSome_iff_exists.mp (hfail 2 (by omega) (by omega))
    obtain ⟨e3, he3⟩ := Option.isSome_iff_exists.mp (hfail 3 (by omega) (by omega))
    have hs1 : (updateAccessToken (initialClient cfg) (responses 1)).1 = initialClient cfg :=
      updateAccessToken_fail_frame _ _ (by rw [he1]; exact Option.some_ne_none e1)
    have hs2 : (updateAccessToken (initialClient cfg) (responses 2)).1 = initialClient cfg :=
      updateAccessToken_fail_frame _ _ (by rw [he2]; exact Option.some_ne_none e2)
    refine ⟨e3, he3, ?_⟩
    have hrun : runWithRetryAux (fun k s => updateAccessToken s (responses k)) 3 3 0
        (initialClient cfg) =
        (some ((updateAccessToken (initialClient cfg) (responses 3)).1, some e3), 3) := by
      rw [runWithRetryAux_step_fail (fun k s => updateAccessToken s (responses k)) 3 2 0
        (initialClient cfg) e1 he1 (by omega)]
      show runWithRetryAux _ 3 2 1 (updateAccessToken (initialClient cfg) (responses 1)).1 = _
      rw [hs1]
      rw [runWithRetryAux_step_fail (fun k s => updateAccessToken s (responses k)) 3 1 1
        (initialClient cfg) e2 he2 (by omega)]
      show runWithRetryAux _ 3 1 2 (updateAccessToken (initialClient cfg) (responses 2)).1 = _
      rw [hs2]
      exact runWithRetryAux_step_stop (fun k s => updateAccessToken s (responses k)) 3 0 2
        (initialClient cfg) e3 he3 (by omega)
    simp [newClient, hu, hrun]
  · intro hcl k hk1 hk3 hprev hk
    obtain ⟨u, hu⟩ := Option.isSome_iff_exists.mp hcl
    interval_cases k
    · have hrun : runWithRetryAux (fun k s => updateAccessToken s (responses k)) 3 3 0
          (initialClient cfg) =
          (some ((updateAccessToken (initialClient cfg) (responses 1)).1, none), 1) :=
        runWithRetryAux_step_ok (fun k s => updateAccessToken s (responses k)) 3 2 0
          (initialClient cfg) hk
      simp [newClient, hu, hrun]
    · obtain ⟨e1, he1⟩ := Option.isSome_iff_exists.mp (hprev 1 (by omega) (by omega))
      have hs1 : (updateAccessToken (initialClient cfg) (responses 1)).1 = initialClient cfg :=
        updateAccessToken_fail_frame _ _ (by rw [he1]; exact Option.some_ne_none e1)
      have hrun : runWithRetryAux (fun k s => updateAccessToken s (responses k)) 3 3 0
          (initialClient cfg) =
          (some ((updateAccessToken (initialClient cfg) (responses 2)).1, none), 2) := by
        rw [runWithRetryAux_step_fail (fun k s => updateAccessToken s (responses k)) 3 2 0
          (initialClient cfg) e1 he1 (by omega)]
        show runWithRetryAux _ 3 2 1 (updateAccessToken (initialClient cfg) (responses 1)).1 = _
        rw [hs1]
        exact runWithRetryAux_step_ok (fun k s => updateAccessToken s (responses k)) 3 1 1
          (initialClient cfg) hk
      simp [newClient, hu, hrun]
    · obtain ⟨e1, he1⟩ := Option.isSome_iff_exists.mp (hprev 1 (by omega) (by omega))
      obtain ⟨e2, he2⟩ := Option.isSome_iff_exists.mp (hprev 2 (by omega) (by omega))
      have hs1 : (updateAccessToken (initialClient cfg) (responses 1)).1 = initialClient cfg :=
        updateAccessToken_fail_frame _ _ (by rw [he1]; exact Option.some_ne_none e1)
      have hs2 : (updateAccessToken (initialClient cfg) (responses 2)).1 = initialClient cfg :=
        updateAccessToken_fail_frame _ _ (by rw [he2]; exact Option.some_ne_none e2)
      have hrun : runWithRetryAux (fun k s => updateAccessToken s (responses k)) 3 3 0
          (initialClient cfg) =
          (some ((updateAccessToken (initialClient cfg) (responses 3)).1, none), 3) := by
        rw [runWithRetryAux_step_fail (fun k s => updateAccessToken s (responses k)) 3 2 0
          (initialClient cfg) e1 he1 (by omega)]
        show runWithRetryAux _ 3 2 1 (updateAccessToken (initialClient cfg) (responses 1)).1 = _
        rw [hs1]
        rw [runWithRetryAux_step_fail (fun k s => updateAccessToken s (responses k)) 3 1 1
          (initialClient cfg) e2 he2 (by omega)]
        show runWithRetryAux _ 3 1 2 (updateAccessToken (initialClient cfg) (responses 2)).1 = _
        rw [hs2]
        exact runWithRetryAux_step_ok (fun k s => updateAccessToken s (responses k)) 3 0 2
          (initialClient cfg) hk
      simp [newClient, hu, hrun]

/-- Sample config used by the NewClient witness: transport present, empty
host so the default host is used. -/
def sampleConfig : GoConfig :=
  { httpClient := some (), host := "", appID := "", appSecret := "" }

/-- Auth endpoint outcomes used by the NewClient witness: every attempt
returns status 200 with the token field set to abc. -/
def sampleResponses : Nat → HTTPResult :=
  fun _ => .response ⟨200, .raw (some [(tokenFieldKey, JVal.jstr abcToken)])⟩

/-- Witness for newClient_spec: with a present transport and a first
attempt that succeeds, NewClient returns a client and starts the
scheduler. -/
theorem newClient_spec_witness :
    newClient sampleConfig sampleResponses =
      (.ok ((updateAccessToken (initialClient sampleConfig) (sampleResponses 1)).1), true) :=
  (newClient_spec sampleConfig sampleResponses).2.2 rfl 1 (by decide) (by decide)
    (fun j h1 h2 => absurd (Nat.lt_of_le_of_lt h1 h2) (by omega)) (by decide)

lemma getGroupIDsAux_cursors (fetch : GroupFetch) :
    ∀ fuel cursor acc x, x ∈ (getGroupIDsAux fetch fuel cursor acc).2 → x = cursor := by
  intro fuel
  induction fuel with
  | zero => intro cursor acc x hx; simp [getGroupIDsAux] at hx
  | succ fuel ih =>
    intro cursor acc x hx
    rcases hf : fetch cursor with e | p
    · simp only [getGroupIDsAux, hf] at hx
      simpa using hx
    · obtain ⟨ids, next⟩ := p
      by_cases hn : next = ""
      · simp only [getGroupIDsAux, hf, if_pos hn] at hx
        simpa using hx
      · simp only [getGroupIDsAux, hf, if_neg hn, List.mem_cons] at hx
        rcases hx with hx | hx
        · exact hx
        · exact ih cursor (acc ++ ids) x hx

/-- Claim C9: every per-page request that GetGroupIDs issues carries the
initial empty cursor — the next cursor a page returns is never passed into
the next request, so pagination never advances past the first page; and
when the first page's next cursor is the empty string, GetGroupIDs returns
exactly that page's group ids. -/
theorem getGroupIDs_cursor_static (fetch : GroupFetch) :
    (∀ fuel x, x ∈ (GetGroupIDs fetch fuel).2 → x = emptyCursor) ∧
    (∀ ids fuel, fetch emptyCursor = .ok (ids, emptyCursor) →
      GetGroupIDs fetch (fuel + 1) = (some (.ok ids), [emptyCursor])) := by
  constructor
  · intro fuel x hx
    exact getGroupIDsAux_cursors fetch fuel emptyCursor [] x hx
  · intro ids fuel h
    show getGroupIDsAux fetch (fuel + 1) emptyCursor [] = _
    simp only [getGroupIDsAux, h]
    rw [if_pos (show emptyCursor = "" from rfl)]
    simp

/-- Single group id returned in the pagination witness. -/
def groupOne : String := "g1"

/-- Page endpoint of the pagination witness: one page with one group id and
an empty next cursor. -/
def sampleFetch : GroupFetch := fun _ => Except.ok ([groupOne], emptyCursor)

/-- Witness for getGroupIDs_cursor_static: a single page with one group id
and an empty next cursor yields exactly that one-element list, requested
with the empty cursor. -/
theorem getGroupIDs_cursor_static_witness :
    GetGroupIDs sampleFetch 1 = (some (.ok [groupOne]), [emptyCursor]) :=
  (getGroupIDs_cursor_static sampleFetch).2 [groupOne] 0 rfl

end Seatalkbot
